import Mathlib

/-!
Shallow embedding of the keychain-cli repository (macterra/keychain-cli).

The repository holds a CLI front end (kc.js, the functions loadWallet,
initializeWallet, createId, useId, encrypt, decrypt) together with the test
suite of the keymaster library. The keymaster, cipher and gatekeeper modules
themselves are exercised by the tests but their sources are absent; where a
definition embeds one of those absent functions its doc comment starts with
"Modelled from the spec:" and names the missing function. Definitions taken
from kc.js itself carry a doc comment naming the source lines.
-/

namespace Cipher

/-- Modelled from the spec: a secp256k1 private key expressed as a JWK
(cipher.js is absent). The field d stands for the private scalar. -/
structure PrivJwk where
  d : Nat
deriving DecidableEq, Repr

/-- Modelled from the spec: a secp256k1 public key expressed as a JWK
(cipher.js is absent). The field x stands for the curve point. -/
structure PubJwk where
  x : Nat
deriving DecidableEq, Repr

/-- Modelled from the spec: the public key determined by a private key. -/
def pubOf (p : PrivJwk) : PubJwk := ⟨p.d⟩

/-- Modelled from the spec: deriveKeypair(hdkey, account, index) derives a
secp256k1 keypair along the path m/44h/0h/account-h/0/index (cipher.js is
absent). The derivation is modelled as an injective pairing of the extended
key with the path components. -/
def deriveKeypair (hdkey account index : Nat) : PrivJwk × PubJwk :=
  let p : PrivJwk := ⟨Nat.pair hdkey (Nat.pair account index)⟩
  (p, pubOf p)

/-- Modelled from the spec: the ECDH shared secret of a public and a private
key, expanded through HKDF into a symmetric key (cipher.js is absent). The
unordered pair of the two scalars makes the secret symmetric in the two
keypairs, as ECDH is. -/
def ecdhShared (pub : PubJwk) (priv : PrivJwk) : Nat × Nat :=
  (min pub.x priv.d, max pub.x priv.d)

theorem ecdhShared_comm (a b : PrivJwk) :
    ecdhShared (pubOf a) b = ecdhShared (pubOf b) a := by
  simp [ecdhShared, pubOf, Nat.min_comm, Nat.max_comm]

/-- Modelled from the spec: an AEAD ciphertext, recording the symmetric key
it was sealed under and the sealed payload (cipher.js is absent). -/
structure Ciphertext where
  key : Nat × Nat
  payload : String
deriving DecidableEq, Repr

/-- Modelled from the spec: encryptMessage(pubReceiver, privSender, plaintext)
derives the ECDH shared secret and seals the plaintext under it. -/
def encryptMessage (pub : PubJwk) (priv : PrivJwk) (msg : String) : Ciphertext :=
  ⟨ecdhShared pub priv, msg⟩

/-- Modelled from the spec: decryptMessage(pubOther, privSelf, ciphertext) is
the inverse of encryptMessage and fails (DecryptionFailed, here none) on MAC
mismatch, that is exactly when the derived key differs from the sealing key. -/
def decryptMessage (pub : PubJwk) (priv : PrivJwk) (ct : Ciphertext) : Option String :=
  if ecdhShared pub priv = ct.key then some ct.payload else none

/-- Modelled from the spec: hashMessage(s) is SHA-256 over UTF-8, modelled as
an injective function into strings (cipher.js is absent). -/
def hashMessage (s : String) : String := "sha256:" ++ s

theorem hashMessage_inj {a b : String} (h : hashMessage a = hashMessage b) :
    a = b := by
  have hd : ("sha256:" ++ a).data = ("sha256:" ++ b).data := by
    rw [show ("sha256:" ++ a) = hashMessage a from rfl,
        show ("sha256:" ++ b) = hashMessage b from rfl, h]
  rw [String.data_append, String.data_append] at hd
  have := List.append_cancel_left hd
  cases a; cases b; simp only at this; rw [this]

/-- Modelled from the spec: an ECDSA signature value over a hash, produced by
signHash and checked by verifySig (cipher.js is absent). The value records
the hash it signs and the signing scalar; verification accepts exactly the
value signHash produces for the matching keypair. -/
structure SigValue where
  h : String
  k : Nat
deriving DecidableEq, Repr

/-- Modelled from the spec: signHash(hashHex, privJwk). -/
def signHash (h : String) (priv : PrivJwk) : SigValue := ⟨h, priv.d⟩

/-- Modelled from the spec: verifySig(hashHex, sigHex, pubJwk). -/
def verifySig (h : String) (sig : SigValue) (pub : PubJwk) : Bool :=
  sig.h = h ∧ sig.k = pub.x

/-- Modelled from the spec: hdkeyFromMnemonic(m), the BIP-39 seed derivation
followed by BIP-32 master key construction, modelled as an encoding of the
phrase (cipher.js is absent). -/
def hdkeyFromMnemonic (m : String) : Nat :=
  m.data.foldl (fun a c => a * 1114112 + c.toNat + 1) 0

/-- Joins a list of words with single spaces, the shape a BIP-39 phrase has. -/
def joinWords : List String → String
  | [] => ""
  | [w] => w
  | w :: ws => w ++ " " ++ joinWords ws

/-- Word count of a phrase: the number of parts splitting on a single space
yields, which for any string is one more than the number of space characters. -/
def wordCount (s : String) : Nat := s.data.count ' ' + 1

theorem count_space_joinWords (ws : List String)
    (hw : ∀ w ∈ ws, w.data.count ' ' = 0) (hne : ws ≠ []) :
    (joinWords ws).data.count ' ' = ws.length - 1 := by
  induction ws with
  | nil => simp at hne
  | cons w ws ih =>
    cases ws with
    | nil => simp [joinWords, hw w (by simp)]
    | cons v vs =>
      have hstep : joinWords (w :: v :: vs) = w ++ " " ++ joinWords (v :: vs) := rfl
      have hrec := ih (fun u hu => hw u (List.mem_cons_of_mem _ hu)) (by simp)
      have hwc := hw w (by simp)
      simp only [hstep, String.data_append, List.count_append]
      simp [hwc, hrec, List.count_cons, Nat.add_comm]

end Cipher

/-- Association-list lookup by key, the shape of JS object indexing used
throughout the wallet and the registry. -/
def lookupK {α : Type} (n : String) : List (String × α) → Option α
  | [] => none
  | (k, v) :: rest => if k = n then some v else lookupK n rest

theorem lookupK_cons_self {α : Type} (n : String) (v : α) (l : List (String × α)) :
    lookupK n ((n, v) :: l) = some v := by
  simp [lookupK]

namespace Gatekeeper

/-- Modelled from the spec: the state the registry keeps for one DID
(gatekeeper.js is absent): the controller, the deactivated flag, the current
verification public key and the anchored data payload. -/
structure RegEntry where
  controller : String
  deactivated : Bool
  pubkey : Cipher.PubJwk
deriving DecidableEq, Repr

/-- Modelled from the spec: the registry as a map from DID to its state. -/
def Registry : Type := List (String × RegEntry)

/-- Modelled from the spec: the body of a resolved DID document. -/
structure DocBody where
  id : String
  controller : String
deriving DecidableEq, Repr

/-- Modelled from the spec: the document resolveDid returns; a deactivated
DID resolves to an empty didDocument with didDocumentMetadata.deactivated
set to true. -/
structure ResolvedDoc where
  didDocument : Option DocBody
  deactivated : Bool
deriving DecidableEq, Repr

/-- Modelled from the spec: resolveDid(did) (gatekeeper.js is absent). -/
def resolveDid (reg : Registry) (did : String) : Option ResolvedDoc :=
  (lookupK did reg).map fun e =>
    if e.deactivated then ⟨none, true⟩ else ⟨some ⟨did, e.controller⟩, false⟩

/-- Modelled from the spec: the current verification public key of a DID, as
read from didDocument.verificationMethod[0].publicKeyJwk; a deactivated DID
has an empty didDocument and hence no key. -/
def pubOfDid (reg : Registry) (did : String) : Option Cipher.PubJwk :=
  match lookupK did reg with
  | none => none
  | some e => if e.deactivated then none else some e.pubkey

/-- Modelled from the spec: the registry after a deactivate operation on a
DID (deleteDid); every other DID keeps its state. -/
def setDeactivated (reg : Registry) (did : String) : Registry :=
  reg.map fun p => if p.1 = did then (p.1, { p.2 with deactivated := true }) else p

theorem setDeactivated_cons (k : String) (v : RegEntry)
    (rest : Registry) (did : String) :
    setDeactivated ((k, v) :: rest) did =
      (if k = did then (k, { v with deactivated := true }) else (k, v)) ::
        setDeactivated rest did := by
  by_cases h : k = did <;> simp [setDeactivated, h]

theorem lookupK_setDeactivated_self (reg : Registry) (did : String) :
    lookupK did (setDeactivated reg did) =
      (lookupK did reg).map fun e => { e with deactivated := true } := by
  induction reg with
  | nil => rfl
  | cons p rest ih =>
    obtain ⟨k, v⟩ := p
    by_cases h : k = did
    · subst h; rw [setDeactivated_cons, if_pos rfl]; simp [lookupK]
    · rw [setDeactivated_cons, if_neg h]; simp [lookupK, h, ih]

theorem lookupK_setDeactivated_other (reg : Registry) (did other : String)
    (h : other ≠ did) :
    lookupK other (setDeactivated reg did) = lookupK other reg := by
  induction reg with
  | nil => rfl
  | cons p rest ih =>
    obtain ⟨k, v⟩ := p
    by_cases hp : k = did
    · subst hp
      have hk : k ≠ other := fun hc => h hc.symm
      rw [setDeactivated_cons, if_pos rfl]
      simp [lookupK, hk, ih]
    · rw [setDeactivated_cons, if_neg hp]
      by_cases ho : k = other
      · subst ho; simp [lookupK]
      · simp [lookupK, ho, ih]

end Gatekeeper

namespace Cipher

/-- Modelled from the spec: the symmetric encryption used to store the
mnemonic at rest (cipher.js is absent); the ciphertext string records the
key and carries the payload behind a prefix of computable length. -/
def encryptWithKey (k : Nat) (s : String) : String :=
  "|" ++ toString k ++ "|" ++ s

/-- Modelled from the spec: the inverse of encryptWithKey for the holder of
the key. -/
def decryptWithKey (k : Nat) (c : String) : String :=
  String.mk (c.data.drop ("|" ++ toString k ++ "|").data.length)

theorem decryptWithKey_encryptWithKey (k : Nat) (s : String) :
    decryptWithKey k (encryptWithKey k s) = s := by
  unfold decryptWithKey encryptWithKey
  rw [show ((("|" ++ toString k) ++ "|") ++ s).data
        = (("|" ++ toString k) ++ "|").data ++ s.data from String.data_append _ _,
      List.drop_left]

theorem encryptWithKey_ne (k : Nat) (s : String) : encryptWithKey k s ≠ s := by
  intro h
  have hd := congrArg String.data h
  unfold encryptWithKey at hd
  rw [show ((("|" ++ toString k) ++ "|") ++ s).data
        = (("|" ++ toString k) ++ "|").data ++ s.data from String.data_append _ _] at hd
  have hlen := congrArg List.length hd
  rw [List.length_append] at hlen
  have h2 : (("|" ++ toString k) ++ "|").data.length
      = ("|" ++ toString k).data.length + 1 := by
    rw [String.data_append, List.length_append]
    rfl
  omega

end Cipher

namespace Keymaster

/-- Identity record of the wallet: the DID, the immutable hardened account,
the current key index, the DIDs the identity authored and the credential
DIDs it accepted. -/
structure KId where
  did : String
  account : Nat
  index : Nat
  owned : List String
  held : List String
deriving DecidableEq, Repr

/-- Wallet state of the keymaster: the encrypted mnemonic and the serialized
extended key, the next account to allocate, the active identity name, the
identities and the alias table. -/
structure KWallet where
  seedMnemonic : String
  seedHdkey : Nat
  counter : Nat
  current : Option String
  ids : List (String × KId)
  names : List (String × String)
deriving DecidableEq, Repr

/-- Modelled from the spec: the symmetric key under which the mnemonic is
stored, derived from the wallet seed material (keymaster.js is absent). -/
def mnemonicKey (hdkey : Nat) : Nat := Nat.pair hdkey hdkey

/-- Modelled from the spec: newWallet(mnemonic) builds a fresh wallet whose
seed.mnemonic is stored encrypted at rest under a key derived from the
mnemonic itself and whose seed.hdkey is the serialized extended key
(keymaster.js is absent). -/
def newWallet (m : String) : KWallet :=
  let hd := Cipher.hdkeyFromMnemonic m
  { seedMnemonic := Cipher.encryptWithKey (mnemonicKey hd) m
    seedHdkey := hd
    counter := 0
    current := none
    ids := []
    names := [] }

/-- Modelled from the spec: decryptMnemonic() returns the plaintext mnemonic
by re-deriving the storage key from the wallet seed (keymaster.js is
absent). -/
def decryptMnemonic (w : KWallet) : String :=
  Cipher.decryptWithKey (mnemonicKey w.seedHdkey) w.seedMnemonic

/-- Identity named by wallet.current, when one is set; an empty or unset
current name yields none, matching the falsiness check on wallet.current. -/
def getCurrentId (w : KWallet) : Option KId :=
  match w.current with
  | none => none
  | some n => if n = "" then none else lookupK n w.ids

/-- Modelled from the spec: createId(name) fails with NameTaken when the
name exists in ids or names, and otherwise allocates account = counter,
stores the identity at index 0 with empty owned and held, sets current and
increments the counter (keymaster.js is absent; the DID the registry
returns for the create operation is a parameter). -/
def createId (did name : String) (w : KWallet) : Except String (String × KWallet) :=
  if (lookupK name w.ids).isSome || (lookupK name w.names).isSome then
    .error ("Already have an ID named " ++ name)
  else
    .ok (did,
      { w with
        ids := (name, ⟨did, w.counter, 0, [], []⟩) :: w.ids
        counter := w.counter + 1
        current := some name })

/-- Modelled from the spec: useId(name) fails with NoSuchId when absent and
otherwise sets current (keymaster.js is absent). -/
def useId (name : String) (w : KWallet) : Except String KWallet :=
  match lookupK name w.ids with
  | some _ => .ok { w with current := some name }
  | none => .error ("No ID named " ++ name)

/-- Modelled from the spec: removeId(name) fails with NoSuchId when absent,
deletes the identity and clears current when it named it (keymaster.js is
absent). -/
def removeId (name : String) (w : KWallet) : Except String KWallet :=
  match lookupK name w.ids with
  | none => .error ("No ID named " ++ name)
  | some _ =>
    .ok { w with
          ids := w.ids.filter fun p => p.1 ≠ name
          current := if w.current = some name then some "" else w.current }

/-- Modelled from the spec: rotateKeys() requires a current identity and on
registry success increments its index (keymaster.js is absent; the registry
acceptance is the success branch). -/
def rotateKeys (w : KWallet) : Except String KWallet :=
  match w.current with
  | none => .error "No current ID"
  | some n =>
    match lookupK n w.ids with
    | none => .error "No current ID"
    | some _ =>
      .ok { w with
            ids := w.ids.map fun p =>
              if p.1 = n then (p.1, { p.2 with index := p.2.index + 1 }) else p }

/-- Modelled from the spec: addName(alias, did) fails when the alias is
already in use across names and ids, and otherwise records the alias
(keymaster.js is absent). -/
def addName (alias0 did : String) (w : KWallet) : Except String KWallet :=
  if (lookupK alias0 w.names).isSome || (lookupK alias0 w.ids).isSome then
    .error "Name already in use"
  else
    .ok { w with names := (alias0, did) :: w.names }

/-- Modelled from the spec: removeName(alias) removes the alias when present
and reports true either way (keymaster.js is absent). -/
def removeName (alias0 : String) (w : KWallet) : KWallet :=
  { w with names := w.names.filter fun p => p.1 ≠ alias0 }

/-- Modelled from the spec: the wallet mutation acceptCredential performs on
success, appending the credential DID to the held list of the current
identity (keymaster.js is absent). -/
def holdCredential (vcDid : String) (w : KWallet) : Except String KWallet :=
  match w.current with
  | none => .error "No current ID"
  | some n =>
    match lookupK n w.ids with
    | none => .error "No current ID"
    | some _ =>
      .ok { w with
            ids := w.ids.map fun p =>
              if p.1 = n then (p.1, { p.2 with held := vcDid :: p.2.held }) else p }

/-- Modelled from the spec: the wallet mutation attestCredential performs on
success, appending the envelope DID to the owned list of the current
identity (keymaster.js is absent). -/
def ownCredential (envDid : String) (w : KWallet) : Except String KWallet :=
  match w.current with
  | none => .error "No current ID"
  | some n =>
    match lookupK n w.ids with
    | none => .error "No current ID"
    | some _ =>
      .ok { w with
            ids := w.ids.map fun p =>
              if p.1 = n then (p.1, { p.2 with owned := envDid :: p.2.owned }) else p }

/-- One successful wallet-mutating operation of the keymaster. -/
inductive KStep : KWallet → KWallet → Prop where
  | create {w w' : KWallet} (did name d : String) :
      createId did name w = .ok (d, w') → KStep w w'
  | use {w w' : KWallet} (name : String) :
      useId name w = .ok w' → KStep w w'
  | remove {w w' : KWallet} (name : String) :
      removeId name w = .ok w' → KStep w w'
  | rotate {w w' : KWallet} :
      rotateKeys w = .ok w' → KStep w w'
  | addname {w w' : KWallet} (alias0 did : String) :
      addName alias0 did w = .ok w' → KStep w w'
  | removename {w w' : KWallet} (alias0 : String) :
      w' = removeName alias0 w → KStep w w'
  | hold {w w' : KWallet} (vcDid : String) :
      holdCredential vcDid w = .ok w' → KStep w w'
  | own {w w' : KWallet} (envDid : String) :
      ownCredential envDid w = .ok w' → KStep w w'

/-- Wallet invariant: every identity has account strictly below the
counter. -/
def accountInv (w : KWallet) : Prop :=
  ∀ p ∈ w.ids, (p.2 : KId).account < w.counter

/-- Wallets reachable from a freshly created wallet by successful keymaster
operations. -/
def ReachableWallet (m : String) (w : KWallet) : Prop :=
  Relation.ReflTransGen KStep (newWallet m) w

/-- Modelled from the spec: the encrypted envelope keymaster.encrypt anchors
as a data-DID (keymaster.js is absent): the sender DID, the sender public
key the registry resolves for the creation time of the envelope, the SHA-256
of the plaintext, and the plaintext encrypted once to the sender and once to
the receiver. -/
structure Envelope where
  sender : String
  senderPub : Cipher.PubJwk
  cipher_hash : String
  cipher_sender : Cipher.Ciphertext
  cipher_receiver : Cipher.Ciphertext
deriving DecidableEq, Repr

/-- Modelled from the spec: keymaster.encrypt builds the envelope from the
current sender keypair and the resolved receiver public key; cipher_sender
is sealed to the sender itself and cipher_receiver to the receiver
(keymaster.js is absent). -/
def encrypt (senderDid : String) (senderPriv : Cipher.PrivJwk)
    (receiverPub : Cipher.PubJwk) (msg : String) : Envelope :=
  { sender := senderDid
    senderPub := Cipher.pubOf senderPriv
    cipher_hash := Cipher.hashMessage msg
    cipher_sender := Cipher.encryptMessage (Cipher.pubOf senderPriv) senderPriv msg
    cipher_receiver := Cipher.encryptMessage receiverPub senderPriv msg }

/-- Modelled from the spec: the historical-key walk of keymaster.decrypt;
the key at the given index is tried first and on failure the walk regresses
through every smaller index, returning none only after index 0 failed too
(keymaster.js is absent). -/
def decryptWalk (senderPub : Cipher.PubJwk) (hdkey account : Nat)
    (ct : Cipher.Ciphertext) : Nat → Option String
  | 0 => Cipher.decryptMessage senderPub (Cipher.deriveKeypair hdkey account 0).1 ct
  | i + 1 =>
    match Cipher.decryptMessage senderPub
        (Cipher.deriveKeypair hdkey account (i + 1)).1 ct with
    | some pt => some pt
    | none => decryptWalk senderPub hdkey account ct i

/-- Modelled from the spec: keymaster.decrypt resolves the envelope, picks
the sender or the receiver copy by comparing the sender DID with the current
identity, walks the key history downward from the current index, and checks
hashMessage(plaintext) against cipher_hash before returning, failing with
TamperedCiphertext on mismatch (keymaster.js is absent). -/
def decrypt (hdkey : Nat) (id : KId) (env : Envelope) : Except String String :=
  let ct := if env.sender = id.did then env.cipher_sender else env.cipher_receiver
  match decryptWalk env.senderPub hdkey id.account ct id.index with
  | none => .error "Cannot decrypt"
  | some pt =>
    if Cipher.hashMessage pt = env.cipher_hash then .ok pt
    else .error "TamperedCiphertext"

/-- Signature attached by addSignature: the signer DID, the signing time,
the hash of the canonicalized residue and the signature value. -/
structure Sig where
  signer : String
  signed : String
  hash : String
  value : Cipher.SigValue
deriving DecidableEq, Repr

/-- Signable object: a body (the object minus its signature field,
represented through the canon function by its RFC 8785 canonical form) and
an optional attached signature. The none case of Option (Signed α) stands
for the null argument of the JS functions. -/
structure Signed (α : Type) where
  body : α
  signature : Option Sig
deriving DecidableEq, Repr

/-- Modelled from the spec: addSignature(obj) requires a current identity
and a non-null object, strips any existing signature, canonicalizes, hashes
and signs with the current private key, attaching
signature = signer, signed, hash, value (keymaster.js is absent). -/
def addSignature {α : Type} (canon : α → String) (hdkey : Nat) (w : KWallet)
    (now : String) (obj : Option (Signed α)) : Except String (Signed α) :=
  match getCurrentId w with
  | none => .error "No current ID"
  | some id =>
    match obj with
    | none => .error "Invalid input"
    | some ob =>
      let h := Cipher.hashMessage (canon ob.body)
      .ok ⟨ob.body,
        some ⟨id.did, now, h,
          Cipher.signHash h (Cipher.deriveKeypair hdkey id.account id.index).1⟩⟩

/-- Modelled from the spec: verifySignature(obj) returns false for a null
object or a missing signature, otherwise detaches the signature,
canonicalizes the residue, hashes, resolves the signer DID and verifies with
the resolved public key; every failure yields false rather than an error
(keymaster.js is absent). -/
def verifySignature {α : Type} (canon : α → String) (reg : Gatekeeper.Registry)
    (obj : Option (Signed α)) : Bool :=
  match obj with
  | none => false
  | some ob =>
    match ob.signature with
    | none => false
    | some sig =>
      match Gatekeeper.pubOfDid reg sig.signer with
      | none => false
      | some pub => Cipher.verifySig (Cipher.hashMessage (canon ob.body)) sig.value pub

/-- One requested credential of a challenge: a schema DID and the acceptable
attestor DIDs. -/
structure Requirement where
  schema : String
  attestors : List String
deriving DecidableEq, Repr

/-- Decrypted content of a verifiable credential: the issuer DID, the schema
DID and the credential payload. -/
structure VcData where
  issuer : String
  schema : String
  content : String
deriving DecidableEq, Repr

/-- Canonical form of a credential body, used for hashing and signing. -/
def canonVc (v : VcData) : String := v.issuer ++ "|" ++ v.schema ++ "|" ++ v.content

/-- One entry of a presentation: the attestation DID and the re-encrypted
copy addressed to the verifier, here already decrypted to its signed
content. -/
structure PresCred where
  vc : String
  vp : Signed VcData
deriving DecidableEq, Repr

/-- Whether the attestation DID still resolves to an active document. -/
def vcActive (reg : Gatekeeper.Registry) (did : String) : Bool :=
  match lookupK did reg with
  | some e => !e.deactivated
  | none => false

/-- Modelled from the spec: the check verifyResponse runs for one requested
credential: find a matching presentation entry, verify its signature, check
the schema, check the issuer against the attestors and check that the
attestation DID is not deactivated; none when no entry passes
(keymaster.js is absent). -/
def checkRequirement (reg : Gatekeeper.Registry) (pcreds : List PresCred)
    (req : Requirement) : Option VcData :=
  (pcreds.find? fun pc =>
      (pc.vp.body.schema == req.schema)
        && req.attestors.contains pc.vp.body.issuer
        && verifySignature canonVc reg (some pc.vp)
        && vcActive reg pc.vc).map
    fun pc => pc.vp.body

/-- Modelled from the spec: verifyResponse returns the list of verified
decrypted credentials filtered by the challenge requirements; revoked or
missing credentials drop out and shorten the list (keymaster.js is absent;
the decryption of the presentation envelope is modelled by taking the
decrypted presentation as input). -/
def verifyResponse (reg : Gatekeeper.Registry) (reqs : List Requirement)
    (pcreds : List PresCred) : List VcData :=
  reqs.filterMap (checkRequirement reg pcreds)

/-- Modelled from the spec: revokeCredential(vcDid) requires a current
identity, reads the inner credential, verifies the current identity issued
and hence controls it, and submits a deactivate operation; it reports true
on first-time deactivation and false when the credential is already
deactivated, missing, or not controlled by the current identity
(keymaster.js is absent). -/
def revokeCredential (w : KWallet) (reg : Gatekeeper.Registry) (vcDid : String) :
    Except String (Bool × Gatekeeper.Registry) :=
  match getCurrentId w with
  | none => .error "No current ID"
  | some id =>
    match lookupK vcDid reg with
    | none => .ok (false, reg)
    | some e =>
      if e.deactivated then .ok (false, reg)
      else if e.controller = id.did then
        .ok (true, Gatekeeper.setDeactivated reg vcDid)
      else .ok (false, reg)

theorem KStep_preserves_accountInv {w w' : KWallet}
    (h : KStep w w') (hinv : accountInv w) : accountInv w' := by
  cases h with
  | create did name d hc =>
    unfold createId at hc
    split at hc
    · exact absurd hc (by simp)
    · injection hc with hc2
      cases hc2
      intro p hp
      rcases List.mem_cons.mp hp with hnew | hold0
      · subst hnew; simp
      · exact Nat.lt_succ_of_lt (hinv p hold0)
  | use name hc =>
    unfold useId at hc
    split at hc
    · injection hc with hc2; subst hc2
      intro p hp; exact hinv p hp
    · exact absurd hc (by simp)
  | remove name hc =>
    unfold removeId at hc
    split at hc
    · exact absurd hc (by simp)
    · injection hc with hc2; subst hc2
      intro p hp
      exact hinv p (List.mem_of_mem_filter hp)
  | rotate hc =>
    unfold rotateKeys at hc
    split at hc
    · exact absurd hc (by simp)
    · split at hc
      · exact absurd hc (by simp)
      · injection hc with hc2; subst hc2
        intro p hp
        obtain ⟨q, hq, hfq⟩ := List.mem_map.mp hp
        have hacc : (p.2 : KId).account = (q.2 : KId).account := by
          rw [← hfq]
          split <;> rfl
        rw [hacc]
        exact hinv q hq
  | addname alias0 did hc =>
    unfold addName at hc
    split at hc
    · exact absurd hc (by simp)
    · injection hc with hc2; subst hc2
      intro p hp; exact hinv p hp
  | removename alias0 hc =>
    subst hc
    intro p hp; exact hinv p hp
  | hold vcDid hc =>
    unfold holdCredential at hc
    split at hc
    · exact absurd hc (by simp)
    · split at hc
      · exact absurd hc (by simp)
      · injection hc with hc2; subst hc2
        intro p hp
        obtain ⟨q, hq, hfq⟩ := List.mem_map.mp hp
        have hacc : (p.2 : KId).account = (q.2 : KId).account := by
          rw [← hfq]
          split <;> rfl
        rw [hacc]
        exact hinv q hq
  | own envDid hc =>
    unfold ownCredential at hc
    split at hc
    · exact absurd hc (by simp)
    · split at hc
      · exact absurd hc (by simp)
      · injection hc with hc2; subst hc2
        intro p hp
        obtain ⟨q, hq, hfq⟩ := List.mem_map.mp hp
        have hacc : (p.2 : KId).account = (q.2 : KId).account := by
          rw [← hfq]
          split <;> rfl
        rw [hacc]
        exact hinv q hq

end Keymaster

namespace Cli

/-- Identity record the CLI stores in wallet.ids (kc.js lines 59 to 64); the
resolved document is kept alongside but plays no role here and is carried as
its DID string. -/
structure CliId where
  did : String
  account : Nat
  index : Nat
deriving DecidableEq, Repr

/-- Seed block of the CLI wallet (kc.js lines 33 to 37): the plaintext
mnemonic and the serialized extended key. -/
structure CliSeed where
  mnemonic : String
  hdkey : Nat
deriving DecidableEq, Repr

/-- Wallet state of the CLI (kc.js lines 33 to 40); current is absent until
createId first sets it, modelled as an Option. The CLI wallet has no names
table. -/
structure CliWallet where
  seed : CliSeed
  counter : Nat
  current : Option String
  ids : List (String × CliId)
deriving DecidableEq, Repr

/-- initializeWallet (kc.js lines 24 to 44): build a wallet from a freshly
generated mnemonic with counter 0 and empty ids, and persist it. The
generated mnemonic is a parameter standing for bip39.generateMnemonic(). -/
def initializeWallet (m : String) : CliWallet :=
  { seed := ⟨m, Cipher.hdkeyFromMnemonic m⟩
    counter := 0
    current := none
    ids := [] }

/-- Top-level keys of the persisted JSON wallet document in insertion order:
initializeWallet inserts seed, counter and ids (kc.js lines 33 to 40);
createId later adds current (kc.js line 69). -/
def walletJsonKeys (w : CliWallet) : List String :=
  ["seed", "counter", "ids"] ++
    (match w.current with
     | some _ => ["current"]
     | none => [])

/-- Falsiness of wallet.current as the CLI guards test it (kc.js lines 100
and 121): absent or empty means no current identity. -/
def currentFalsy : Option String → Bool
  | none => true
  | some s => s = ""

/-- Lines listIds prints (kc.js lines 75 to 84). -/
def listIds (w : CliWallet) : List String :=
  w.ids.map fun p =>
    if w.current = some p.1 then p.1 ++ "  <<< current" else p.1

/-- Observable outcome of one CLI command: the wallet after the call,
whether saveWallet ran, how many keypairs were derived from the seed, the
printed lines, and any ciphertext or plaintext value printed. -/
structure CliOut where
  wallet : CliWallet
  saved : Bool
  derivations : Nat
  output : List String
  cipherOut : Option Cipher.Ciphertext
  plainOut : Option String
deriving DecidableEq, Repr

/-- useId (kc.js lines 86 to 95): when the name exists set current, save and
list the identities; otherwise only print the failure message. -/
def useId (w : CliWallet) (name : String) : CliOut :=
  match lookupK name w.ids with
  | some _ =>
    let w' : CliWallet := { w with current := some name }
    ⟨w', true, 0, listIds w', none, none⟩
  | none => ⟨w, false, 0, ["No ID named " ++ name], none, none⟩

/-- encrypt (kc.js lines 97 to 116): log the call, return after printing
"No current ID" when wallet.current is falsy, otherwise derive the current
keypair, resolve the receiver public key and print the ciphertext. An
undefined current identity or a failing resolve crashes the JS and is
modelled as none. -/
def encrypt (reg : Gatekeeper.Registry) (w : CliWallet) (msg did : String) :
    Option CliOut :=
  let log0 := "encrypt " ++ msg ++ " for " ++ did
  if currentFalsy w.current then
    some ⟨w, false, 0, [log0, "No current ID"], none, none⟩
  else
    match w.current with
    | none => some ⟨w, false, 0, [log0, "No current ID"], none, none⟩
    | some n =>
      match lookupK n w.ids with
      | none => none
      | some id =>
        match Gatekeeper.pubOfDid reg did with
        | none => none
        | some pub =>
          let keypair := Cipher.deriveKeypair w.seed.hdkey id.account id.index
          some ⟨w, false, 1, [log0],
            some (Cipher.encryptMessage pub keypair.1 msg), none⟩

/-- decrypt (kc.js lines 118 to 137): same wallet handling as encrypt, then
cipher.decryptMessage with the single current key and print the plaintext; a
decryption failure throws in the JS and is modelled as none. -/
def decrypt (reg : Gatekeeper.Registry) (w : CliWallet)
    (msg : Cipher.Ciphertext) (did : String) : Option CliOut :=
  let log0 := "decrypt from " ++ did
  if currentFalsy w.current then
    some ⟨w, false, 0, [log0, "No current ID"], none, none⟩
  else
    match w.current with
    | none => some ⟨w, false, 0, [log0, "No current ID"], none, none⟩
    | some n =>
      match lookupK n w.ids with
      | none => none
      | some id =>
        match Gatekeeper.pubOfDid reg did with
        | none => none
        | some pub =>
          let keypair := Cipher.deriveKeypair w.seed.hdkey id.account id.index
          match Cipher.decryptMessage pub keypair.1 msg with
          | none => none
          | some pt => some ⟨w, false, 1, [log0], none, some pt⟩

end Cli

/-- Concrete identity used by the witness scenarios. -/
def idBob : Keymaster.KId := ⟨"did:bob", 0, 0, [], []⟩

/-- Concrete wallet with Bob as the current identity, used by the witness
scenarios. -/
def wBob : Keymaster.KWallet :=
  { Keymaster.newWallet "m" with
    counter := 1
    current := some "Bob"
    ids := [("Bob", idBob)] }

/-- Concrete registry holding the DID of Bob with the matching public key,
used by the witness scenarios. -/
def regBob : Gatekeeper.Registry :=
  [("did:bob", ⟨"did:bob", false, Cipher.pubOf (Cipher.deriveKeypair 7 0 0).1⟩)]

/-- Concrete credential content used by the witness scenarios. -/
def vcBody : Keymaster.VcData := ⟨"did:bob", "did:schema", "sample"⟩

/-- Concrete signed verifier copy of the credential, signed by Bob at key
index 0, used by the witness scenarios. -/
def vpSigned : Keymaster.Signed Keymaster.VcData :=
  ⟨vcBody, some ⟨"did:bob", "t0",
    Cipher.hashMessage (Keymaster.canonVc vcBody),
    Cipher.signHash (Cipher.hashMessage (Keymaster.canonVc vcBody))
      (Cipher.deriveKeypair 7 0 0).1⟩⟩

/-- Concrete presentation entry used by the witness scenarios. -/
def pcBob : Keymaster.PresCred := ⟨"did:vc", vpSigned⟩

/-- Concrete registry holding the DID of Bob and an attestation DID that Bob
controls, used by the witness scenarios. -/
def regFull : Gatekeeper.Registry :=
  [("did:bob", ⟨"did:bob", false, Cipher.pubOf (Cipher.deriveKeypair 7 0 0).1⟩),
   ("did:vc", ⟨"did:bob", false, ⟨0⟩⟩)]

/-- Concrete challenge requirement asking for the schema attested by Bob,
used by the witness scenarios. -/
def reqBob : Keymaster.Requirement := ⟨"did:schema", ["did:bob"]⟩

/-- C2: the wallet stores seed.mnemonic encrypted at rest under a key
derived from the mnemonic itself, so the stored value differs from the
plaintext 12-word phrase, and decryptMnemonic() returns the original
plaintext mnemonic, which differs from the stored seed.mnemonic value. -/
theorem C2_mnemonic_encrypted_roundtrip (m : String) :
    Keymaster.decryptMnemonic (Keymaster.newWallet m) = m ∧
    (Keymaster.newWallet m).seedMnemonic ≠ m ∧
    Keymaster.decryptMnemonic (Keymaster.newWallet m)
      ≠ (Keymaster.newWallet m).seedMnemonic := by
  have h1 : Keymaster.decryptMnemonic (Keymaster.newWallet m) = m :=
    Cipher.decryptWithKey_encryptWithKey _ _
  refine ⟨h1, Cipher.encryptWithKey_ne _ _, ?_⟩
  rw [h1]
  exact fun h => Cipher.encryptWithKey_ne (Keymaster.mnemonicKey
    (Cipher.hdkeyFromMnemonic m)) m h.symm

/-- C3: createId(name) fails with NameTaken whenever the name exists in ids
or names, producing no new state; on a fresh name it allocates
account = counter, stores the identity at index 0, sets current to the name
and increments the counter by exactly one. -/
theorem C3_createId_name_taken_or_fresh (did name : String) (w : Keymaster.KWallet) :
    ((lookupK name w.ids).isSome ∨ (lookupK name w.names).isSome →
      Keymaster.createId did name w = .error ("Already have an ID named " ++ name)) ∧
    (lookupK name w.ids = none → lookupK name w.names = none →
      ∃ w', Keymaster.createId did name w = .ok (did, w') ∧
        lookupK name w'.ids = some ⟨did, w.counter, 0, [], []⟩ ∧
        w'.current = some name ∧
        w'.counter = w.counter + 1) := by
  constructor
  · intro h
    have hc : ((lookupK name w.ids).isSome || (lookupK name w.names).isSome) = true := by
      rcases h with h | h <;> simp [h]
    unfold Keymaster.createId
    rw [hc]
    simp
  · intro h1 h2
    unfold Keymaster.createId
    rw [if_neg (by simp [h1, h2])]
    exact ⟨_, rfl, lookupK_cons_self _ _ _, rfl, rfl⟩

/-- Witness for C3 at concrete inputs: a duplicate Bob is refused and a
fresh Bob is created with account 0, index 0, current Bob and counter 1. -/
theorem C3_createId_name_taken_or_fresh_witness :
    Keymaster.createId "did:test:2" "Bob"
        { Keymaster.newWallet "m" with
          ids := [("Bob", ⟨"did:test:1", 0, 0, [], []⟩)] }
      = .error ("Already have an ID named " ++ "Bob") ∧
    (∃ w', Keymaster.createId "did:test:1" "Bob" (Keymaster.newWallet "m")
        = .ok ("did:test:1", w') ∧
      lookupK "Bob" w'.ids = some ⟨"did:test:1", (Keymaster.newWallet "m").counter, 0, [], []⟩ ∧
      w'.current = some "Bob" ∧
      w'.counter = (Keymaster.newWallet "m").counter + 1) := by
  constructor
  · exact (C3_createId_name_taken_or_fresh "did:test:2" "Bob" _).1 (Or.inl (by decide))
  · exact (C3_createId_name_taken_or_fresh "did:test:1" "Bob"
      (Keymaster.newWallet "m")).2 rfl rfl

/-- C4: every wallet reachable from a freshly created wallet by successful
keymaster operations satisfies the invariant that each identity has
account strictly below the counter. -/
theorem C4_reachable_account_lt_counter (m : String) (w : Keymaster.KWallet)
    (h : Keymaster.ReachableWallet m w) : Keymaster.accountInv w := by
  unfold Keymaster.ReachableWallet at h
  induction h with
  | refl => intro p hp; simp [Keymaster.newWallet] at hp
  | tail _ hstep ih => exact Keymaster.KStep_preserves_accountInv hstep ih

/-- Witness for C4 at the freshly created wallet. -/
theorem C4_reachable_account_lt_counter_witness :
    Keymaster.accountInv (Keymaster.newWallet "m") :=
  C4_reachable_account_lt_counter "m" _ Relation.ReflTransGen.refl

theorem Keymaster.decryptWalk_succeeds {p : Cipher.PubJwk} {hdkey account : Nat}
    {ct : Cipher.Ciphertext} {k n : Nat} (hk : k ≤ n)
    (h : Cipher.ecdhShared p (Cipher.deriveKeypair hdkey account k).1 = ct.key) :
    Keymaster.decryptWalk p hdkey account ct n = some ct.payload := by
  induction n with
  | zero =>
    have hk0 : k = 0 := Nat.le_zero.mp hk
    subst hk0
    simp [Keymaster.decryptWalk, Cipher.decryptMessage, h]
  | succ n ih =>
    by_cases hc : Cipher.ecdhShared p (Cipher.deriveKeypair hdkey account (n + 1)).1 = ct.key
    · simp [Keymaster.decryptWalk, Cipher.decryptMessage, hc]
    · rcases Nat.lt_succ_iff_lt_or_eq.mp (Nat.lt_succ_of_le hk) with hlt | heq
      · have := ih (Nat.lt_succ_iff.mp hlt)
        simp [Keymaster.decryptWalk, Cipher.decryptMessage, hc, this]
      · exact absurd (heq ▸ h) hc

theorem Keymaster.decryptWalk_none {p : Cipher.PubJwk} {hdkey account : Nat}
    {ct : Cipher.Ciphertext} {n : Nat}
    (h : Keymaster.decryptWalk p hdkey account ct n = none) :
    ∀ i ≤ n, Cipher.decryptMessage p (Cipher.deriveKeypair hdkey account i).1 ct = none := by
  induction n with
  | zero =>
    intro i hi
    have hi0 : i = 0 := Nat.le_zero.mp hi
    subst hi0
    exact h
  | succ n ih =>
    intro i hi
    unfold Keymaster.decryptWalk at h
    rcases hm : Cipher.decryptMessage p (Cipher.deriveKeypair hdkey account (n + 1)).1 ct with _ | pt
    · rw [hm] at h
      rcases Nat.lt_succ_iff_lt_or_eq.mp (Nat.lt_succ_of_le hi) with hlt | heq
      · exact ih h i (Nat.lt_succ_iff.mp hlt)
      · rw [heq]; exact hm
    · rw [hm] at h; exact absurd h (by simp)

/-- C1: a message encrypted to an identity while its key index was k still
decrypts to the original plaintext once keys have rotated to any index
n at least k, because decrypt tries the current private key first and walks
backward through prior indices; and decrypt reports failure only when every
index down to 0 has failed. -/
theorem C1_decrypt_after_rotation (hdkey acct k n : Nat)
    (senderDid recvDid : String) (senderPriv : Cipher.PrivJwk) (msg : String)
    (hk : k ≤ n) (hne : senderDid ≠ recvDid) :
    Keymaster.decrypt hdkey ⟨recvDid, acct, n, [], []⟩
        (Keymaster.encrypt senderDid senderPriv
          (Cipher.pubOf (Cipher.deriveKeypair hdkey acct k).1) msg)
      = .ok msg ∧
    (∀ (id : Keymaster.KId) (env : Keymaster.Envelope),
      Keymaster.decrypt hdkey id env = .error "Cannot decrypt" →
      ∀ i ≤ id.index,
        Cipher.decryptMessage env.senderPub (Cipher.deriveKeypair hdkey id.account i).1
          (if env.sender = id.did then env.cipher_sender else env.cipher_receiver)
          = none) := by
  constructor
  · have hsh : Cipher.ecdhShared (Cipher.pubOf senderPriv)
        (Cipher.deriveKeypair hdkey acct k).1
        = (Cipher.encryptMessage
            (Cipher.pubOf (Cipher.deriveKeypair hdkey acct k).1) senderPriv msg).key :=
      Cipher.ecdhShared_comm senderPriv (Cipher.deriveKeypair hdkey acct k).1
    have hw := Keymaster.decryptWalk_succeeds (n := n) hk hsh
    simp only [Keymaster.decrypt, Keymaster.encrypt, if_neg hne]
    rw [hw]
    simp [Cipher.encryptMessage]
  · intro id env hdec i hi
    unfold Keymaster.decrypt at hdec
    rcases hw : Keymaster.decryptWalk env.senderPub hdkey id.account
        (if env.sender = id.did then env.cipher_sender else env.cipher_receiver)
        id.index with _ | pt
    · exact Keymaster.decryptWalk_none hw i hi
    · simp only [hw] at hdec
      by_cases hh : Cipher.hashMessage pt = env.cipher_hash
      · rw [if_pos hh] at hdec; exact absurd hdec (by simp)
      · rw [if_neg hh] at hdec
        injection hdec with hs
        exact absurd hs (by decide)

/-- Witness for C1: a concrete message encrypted at index 0 decrypts after
one rotation. -/
theorem C1_decrypt_after_rotation_witness :
    Keymaster.decrypt 0 ⟨"did:b", 0, 1, [], []⟩
        (Keymaster.encrypt "did:a" ⟨5⟩
          (Cipher.pubOf (Cipher.deriveKeypair 0 0 0).1) "Hi Bob!")
      = .ok "Hi Bob!" :=
  (C1_decrypt_after_rotation 0 0 0 1 "did:a" "did:b" ⟨5⟩ "Hi Bob!"
    (by decide) (by decide)).1

/-- C7: every envelope produced by encrypt carries cipher_hash equal to the
SHA-256 hash of the plaintext, and decrypt checks hashMessage(plaintext)
against envelope.cipher_hash before returning, failing with
TamperedCiphertext on mismatch. -/
theorem C7_cipher_hash_checked (senderDid : String) (senderPriv : Cipher.PrivJwk)
    (receiverPub : Cipher.PubJwk) (msg : String) (hdkey : Nat)
    (id : Keymaster.KId) (env : Keymaster.Envelope) :
    (Keymaster.encrypt senderDid senderPriv receiverPub msg).cipher_hash
      = Cipher.hashMessage msg ∧
    (∀ pt, Keymaster.decrypt hdkey id env = .ok pt →
      Cipher.hashMessage pt = env.cipher_hash) ∧
    (∀ pt,
      Keymaster.decryptWalk env.senderPub hdkey id.account
          (if env.sender = id.did then env.cipher_sender else env.cipher_receiver)
          id.index = some pt →
      Cipher.hashMessage pt ≠ env.cipher_hash →
      Keymaster.decrypt hdkey id env = .error "TamperedCiphertext") := by
  refine ⟨rfl, ?_, ?_⟩
  · intro pt hdec
    unfold Keymaster.decrypt at hdec
    rcases hw : Keymaster.decryptWalk env.senderPub hdkey id.account
        (if env.sender = id.did then env.cipher_sender else env.cipher_receiver)
        id.index with _ | pt'
    · simp only [hw] at hdec; exact absurd hdec (by simp)
    · simp only [hw] at hdec
      by_cases hh : Cipher.hashMessage pt' = env.cipher_hash
      · rw [if_pos hh] at hdec
        injection hdec with he
        rw [he] at hh
        exact hh
      · rw [if_neg hh] at hdec; exact absurd hdec (by simp)
  · intro pt hw hh
    unfold Keymaster.decrypt
    simp only [hw]
    rw [if_neg hh]

/-- Witness for C7: on a concrete envelope the returned plaintext hashes to
the stored cipher_hash. -/
theorem C7_cipher_hash_checked_witness :
    Cipher.hashMessage "Hi Bob!"
      = (Keymaster.encrypt "did:a" ⟨5⟩
          (Cipher.pubOf (Cipher.deriveKeypair 0 0 0).1) "Hi Bob!").cipher_hash :=
  (C7_cipher_hash_checked "did:a" ⟨5⟩ (Cipher.pubOf (Cipher.deriveKeypair 0 0 0).1)
      "Hi Bob!" 0 ⟨"did:b", 0, 0, [], []⟩
      (Keymaster.encrypt "did:a" ⟨5⟩
        (Cipher.pubOf (Cipher.deriveKeypair 0 0 0).1) "Hi Bob!")).2.1
    "Hi Bob!" rfl

/-- C6: for every signable object with a current identity set,
verifySignature accepts addSignature output; it returns false, not an
error, for any mutation of the signed body or of the signature value, for
a null argument and for an object with no signature. -/
theorem C6_add_verify_signature (hdkey : Nat) (w : Keymaster.KWallet)
    (now : String) (reg : Gatekeeper.Registry) (id : Keymaster.KId)
    (body : String) (sig0 : Option Keymaster.Sig)
    (hcur : Keymaster.getCurrentId w = some id)
    (hreg : Gatekeeper.pubOfDid reg id.did
      = some (Cipher.pubOf (Cipher.deriveKeypair hdkey id.account id.index).1)) :
    ∃ signed,
      Keymaster.addSignature (fun s => s) hdkey w now (some ⟨body, sig0⟩)
        = .ok signed ∧
      Keymaster.verifySignature (fun s => s) reg (some signed) = true ∧
      (∀ b', b' ≠ body →
        Keymaster.verifySignature (fun s => s) reg (some ⟨b', signed.signature⟩)
          = false) ∧
      (∀ sg (v' : Cipher.SigValue), signed.signature = some sg → v' ≠ sg.value →
        Keymaster.verifySignature (fun s => s) reg
          (some ⟨body, some { sg with value := v' }⟩) = false) ∧
      Keymaster.verifySignature (fun s => s) reg none = false ∧
      (∀ b : String,
        Keymaster.verifySignature (fun s => s) reg (some ⟨b, none⟩) = false) := by
  refine ⟨⟨body, some ⟨id.did, now, Cipher.hashMessage body,
      Cipher.signHash (Cipher.hashMessage body)
        (Cipher.deriveKeypair hdkey id.account id.index).1⟩⟩, ?_, ?_, ?_, ?_, rfl, ?_⟩
  · unfold Keymaster.addSignature
    rw [hcur]
  · simp only [Keymaster.verifySignature]
    rw [hreg]
    simp [Cipher.verifySig, Cipher.signHash, Cipher.pubOf, Cipher.deriveKeypair]
  · intro b' hb
    simp only [Keymaster.verifySignature]
    rw [hreg]
    simp only [Cipher.verifySig, Cipher.signHash, Cipher.pubOf,
      decide_eq_false_iff_not]
    intro hcon
    exact hb (Cipher.hashMessage_inj hcon.1).symm
  · intro sg v' hsig hv
    injection hsig with hsg
    subst hsg
    simp only [Keymaster.verifySignature]
    rw [hreg]
    simp only [Cipher.verifySig, Cipher.pubOf, decide_eq_false_iff_not]
    intro hcon
    apply hv
    obtain ⟨h1, h2⟩ := hcon
    cases v'
    simp only [Cipher.signHash, Cipher.deriveKeypair] at h1 h2 ⊢
    simp_all
  · intro b; rfl

/-- Witness for C6 at a concrete wallet, registry and body. -/
theorem C6_add_verify_signature_witness :
    ∃ signed,
      Keymaster.addSignature (fun s => s) 7 wBob "t0" (some ⟨"payload", none⟩)
        = .ok signed ∧
      Keymaster.verifySignature (fun s => s) regBob (some signed) = true ∧
      (∀ b', b' ≠ "payload" →
        Keymaster.verifySignature (fun s => s) regBob (some ⟨b', signed.signature⟩)
          = false) ∧
      (∀ sg (v' : Cipher.SigValue), signed.signature = some sg → v' ≠ sg.value →
        Keymaster.verifySignature (fun s => s) regBob
          (some ⟨"payload", some { sg with value := v' }⟩) = false) ∧
      Keymaster.verifySignature (fun s => s) regBob none = false ∧
      (∀ b : String,
        Keymaster.verifySignature (fun s => s) regBob (some ⟨b, none⟩) = false) :=
  C6_add_verify_signature 7 wBob "t0" regBob idBob "payload" none
    (by decide) (by decide)

theorem List.contains_of_mem_str {a : String} {l : List String} (h : a ∈ l) :
    l.contains a = true := by
  induction l with
  | nil => cases h
  | cons b bs ih =>
    rcases List.mem_cons.mp h with h1 | h2
    · subst h1; simp [List.contains_cons]
    · simp [List.contains_cons, ih h2, h2]

/-- C8: revokeCredential reports true exactly on first-time deactivation of
a credential the current identity controls, reports false when already
deactivated or not controlled, and after success the credential DID
resolves to an empty didDocument with deactivated metadata. -/
theorem C8_revokeCredential_first_time (w : Keymaster.KWallet)
    (reg : Gatekeeper.Registry) (vcDid : String) (id : Keymaster.KId)
    (e : Gatekeeper.RegEntry)
    (hcur : Keymaster.getCurrentId w = some id)
    (he : lookupK vcDid reg = some e) :
    (e.deactivated = false → e.controller = id.did →
      Keymaster.revokeCredential w reg vcDid
          = .ok (true, Gatekeeper.setDeactivated reg vcDid) ∧
      Gatekeeper.resolveDid (Gatekeeper.setDeactivated reg vcDid) vcDid
          = some ⟨none, true⟩) ∧
    (e.deactivated = true →
      Keymaster.revokeCredential w reg vcDid = .ok (false, reg)) ∧
    (e.controller ≠ id.did →
      Keymaster.revokeCredential w reg vcDid = .ok (false, reg)) := by
  refine ⟨?_, ?_, ?_⟩
  · intro hd hctl
    constructor
    · simp [Keymaster.revokeCredential, hcur, he, hd, hctl]
    · simp [Gatekeeper.resolveDid, Gatekeeper.lookupK_setDeactivated_self, he]
  · intro hd
    simp [Keymaster.revokeCredential, hcur, he, hd]
  · intro hctl
    by_cases hd : e.deactivated
    · simp [Keymaster.revokeCredential, hcur, he, hd]
    · simp [Keymaster.revokeCredential, hcur, he, hd, hctl]

/-- Witness for C8: Bob revokes his own attestation for the first time and
the DID resolves deactivated with an empty document. -/
theorem C8_revokeCredential_first_time_witness :
    Keymaster.revokeCredential wBob regFull "did:vc"
        = .ok (true, Gatekeeper.setDeactivated regFull "did:vc") ∧
    Gatekeeper.resolveDid (Gatekeeper.setDeactivated regFull "did:vc") "did:vc"
        = some ⟨none, true⟩ :=
  (C8_revokeCredential_first_time wBob regFull "did:vc" idBob
      ⟨"did:bob", false, ⟨0⟩⟩ (by decide) (by decide)).1 rfl rfl

/-- C9: verifyResponse returns the decrypted credentials filtered by the
challenge requirements; for a one-credential challenge that the response
satisfies it returns a list of length one, and after the issuer revokes the
credential the same response verifies to the empty list. -/
theorem C9_verifyResponse_drops_revoked (wIss : Keymaster.KWallet)
    (reg : Gatekeeper.Registry) (req : Keymaster.Requirement)
    (pc : Keymaster.PresCred) (issuerId : Keymaster.KId) (e : Gatekeeper.RegEntry)
    (hcur : Keymaster.getCurrentId wIss = some issuerId)
    (hsch : pc.vp.body.schema = req.schema)
    (hatt : pc.vp.body.issuer ∈ req.attestors)
    (hsig : Keymaster.verifySignature Keymaster.canonVc reg (some pc.vp) = true)
    (he : lookupK pc.vc reg = some e)
    (hact : e.deactivated = false)
    (hctl : e.controller = issuerId.did) :
    Keymaster.verifyResponse reg [req] [pc] = [pc.vp.body] ∧
    Keymaster.revokeCredential wIss reg pc.vc
      = .ok (true, Gatekeeper.setDeactivated reg pc.vc) ∧
    Keymaster.verifyResponse (Gatekeeper.setDeactivated reg pc.vc) [req] [pc]
      = [] := by
  have hactive : Keymaster.vcActive reg pc.vc = true := by
    simp [Keymaster.vcActive, he, hact]
  refine ⟨?_, ?_, ?_⟩
  · simp [Keymaster.verifyResponse, Keymaster.checkRequirement,
      List.filterMap_cons, List.find?_cons, hsch,
      List.contains_of_mem_str hatt, hatt, hsig, hactive]
  · simp [Keymaster.revokeCredential, hcur, he, hact, hctl]
  · have hinactive :
        Keymaster.vcActive (Gatekeeper.setDeactivated reg pc.vc) pc.vc = false := by
      simp [Keymaster.vcActive, Gatekeeper.lookupK_setDeactivated_self, he]
    simp [Keymaster.verifyResponse, Keymaster.checkRequirement,
      List.filterMap_cons, List.find?_cons, hinactive]

/-- Witness for C9: Victor verifies a one-credential response from Bob,
getting one credential, and gets none after Bob revokes it. -/
theorem C9_verifyResponse_drops_revoked_witness :
    Keymaster.verifyResponse regFull [reqBob] [pcBob] = [pcBob.vp.body] ∧
    Keymaster.revokeCredential wBob regFull pcBob.vc
      = .ok (true, Gatekeeper.setDeactivated regFull pcBob.vc) ∧
    Keymaster.verifyResponse (Gatekeeper.setDeactivated regFull pcBob.vc)
      [reqBob] [pcBob] = [] :=
  C9_verifyResponse_drops_revoked wBob regFull reqBob pcBob idBob
    ⟨"did:bob", false, ⟨0⟩⟩ (by decide) (by decide) (by decide) (by decide)
    (by decide) rfl rfl

/-- C10: on their error paths the CLI operations leave the wallet unchanged:
useId with an unknown name neither changes current nor saves, and encrypt
and decrypt with no current identity return after printing, with no key
derivation and the wallet exactly as it was. -/
theorem C10_error_paths_leave_wallet (w : Cli.CliWallet)
    (name msg did : String) (reg : Gatekeeper.Registry) (ct : Cipher.Ciphertext)
    (hname : lookupK name w.ids = none)
    (hcur : Cli.currentFalsy w.current = true) :
    ((Cli.useId w name).wallet = w ∧ (Cli.useId w name).saved = false) ∧
    Cli.encrypt reg w msg did
      = some ⟨w, false, 0,
          ["encrypt " ++ msg ++ " for " ++ did, "No current ID"], none, none⟩ ∧
    Cli.decrypt reg w ct did
      = some ⟨w, false, 0, ["decrypt from " ++ did, "No current ID"], none, none⟩ := by
  refine ⟨?_, ?_, ?_⟩
  · constructor <;> simp [Cli.useId, hname]
  · simp [Cli.encrypt, hcur]
  · simp [Cli.decrypt, hcur]

/-- Witness for C10 on the freshly initialized CLI wallet, which has no
current identity and no IDs. -/
theorem C10_error_paths_leave_wallet_witness :
    ((Cli.useId (Cli.initializeWallet "m") "Bob").wallet
        = Cli.initializeWallet "m" ∧
      (Cli.useId (Cli.initializeWallet "m") "Bob").saved = false) ∧
    Cli.encrypt [] (Cli.initializeWallet "m") "Hi" "did:b"
      = some ⟨Cli.initializeWallet "m", false, 0,
          ["encrypt " ++ "Hi" ++ " for " ++ "did:b", "No current ID"], none, none⟩ ∧
    Cli.decrypt [] (Cli.initializeWallet "m") ⟨(0, 0), "x"⟩ "did:b"
      = some ⟨Cli.initializeWallet "m", false, 0,
          ["decrypt from " ++ "did:b", "No current ID"], none, none⟩ :=
  C10_error_paths_leave_wallet (Cli.initializeWallet "m") "Bob" "Hi" "did:b"
    [] ⟨(0, 0), "x"⟩ rfl rfl

/-- C5 (amended): creating a wallet from an empty state produces a wallet
whose mnemonic has exactly 12 words, whose counter equals 0 and whose ids
map is empty, persisted as a JSON document with top-level keys seed
(mnemonic and hdkey), counter and ids; the current and names keys are not
present in the initial document and only appear once later operations add
them. -/
theorem C5_initializeWallet_shape (ws : List String)
    (hlen : ws.length = 12) (hsp : ∀ u ∈ ws, u.data.count ' ' = 0) :
    Cipher.wordCount (Cli.initializeWallet (Cipher.joinWords ws)).seed.mnemonic
      = 12 ∧
    (Cli.initializeWallet (Cipher.joinWords ws)).counter = 0 ∧
    (Cli.initializeWallet (Cipher.joinWords ws)).ids = [] ∧
    Cli.walletJsonKeys (Cli.initializeWallet (Cipher.joinWords ws))
      = ["seed", "counter", "ids"] := by
  have hne : ws ≠ [] := by
    intro h; rw [h] at hlen; simp at hlen
  have hc := Cipher.count_space_joinWords ws hsp hne
  refine ⟨?_, rfl, rfl, rfl⟩
  unfold Cipher.wordCount Cli.initializeWallet
  simp only []
  rw [hc, hlen]

/-- Witness for C5 at a concrete 12-word phrase. -/
theorem C5_initializeWallet_shape_witness :
    Cipher.wordCount (Cli.initializeWallet
        (Cipher.joinWords (List.replicate 12 "word"))).seed.mnemonic = 12 ∧
    (Cli.initializeWallet (Cipher.joinWords (List.replicate 12 "word"))).counter
      = 0 ∧
    (Cli.initializeWallet (Cipher.joinWords (List.replicate 12 "word"))).ids
      = [] ∧
    Cli.walletJsonKeys (Cli.initializeWallet
        (Cipher.joinWords (List.replicate 12 "word")))
      = ["seed", "counter", "ids"] :=
  C5_initializeWallet_shape (List.replicate 12 "word") (by decide) (by decide)

/-- Counterexample for C5 as stated: the persisted initial wallet document
has no current key and no names key, so it is not a document with keys
seed, counter, current, ids and names. -/
theorem C5_initializeWallet_keys_counterexample :
    "current" ∉ Cli.walletJsonKeys (Cli.initializeWallet
        (Cipher.joinWords (List.replicate 12 "word"))) ∧
    "names" ∉ Cli.walletJsonKeys (Cli.initializeWallet
        (Cipher.joinWords (List.replicate 12 "word"))) ∧
    Cli.walletJsonKeys (Cli.initializeWallet
        (Cipher.joinWords (List.replicate 12 "word")))
      ≠ ["seed", "counter", "current", "ids", "names"] := by
  decide
